import Mathlib

set_option maxRecDepth 10000

/-!
Verification of the TriggerMail incubator-airflow contrib operators:
a shallow embedding of `airflow/contrib/operators/app_engine_operator.py`
and `airflow/contrib/utils/kubernetes_utils.py`, with theorems about the
dispatch/poll protocol, the job-name uniquifier, and the sync dispatcher.

Machine words are modelled as `Nat` with explicit reduction `% 2^64`;
strings are Lean `String`s (the Python 2 byte strings in scope are ASCII).
-/

namespace AppEngine

/-! ## SHA-512 (the `hashlib.sha512` call used by `uniquify_job_name`)

A direct executable implementation of FIPS 180-4 SHA-512 over byte lists,
64-bit words represented as `Nat` reduced modulo `2^64`. -/

def mask64 : Nat := 2 ^ 64 - 1

def add64 (a b : Nat) : Nat := (a + b) % 2 ^ 64

/-- Right rotation of a 64-bit word (input assumed `< 2^64`). -/
def rotr64 (n x : Nat) : Nat := ((x >>> n) ||| (x <<< (64 - n))) &&& mask64

def shr64 (n x : Nat) : Nat := x >>> n

def chF (x y z : Nat) : Nat := (x &&& y) ^^^ ((x ^^^ mask64) &&& z)

def majF (x y z : Nat) : Nat := (x &&& y) ^^^ (x &&& z) ^^^ (y &&& z)

def bigS0 (x : Nat) : Nat := rotr64 28 x ^^^ rotr64 34 x ^^^ rotr64 39 x

def bigS1 (x : Nat) : Nat := rotr64 14 x ^^^ rotr64 18 x ^^^ rotr64 41 x

def smallS0 (x : Nat) : Nat := rotr64 1 x ^^^ rotr64 8 x ^^^ shr64 7 x

def smallS1 (x : Nat) : Nat := rotr64 19 x ^^^ rotr64 61 x ^^^ shr64 6 x

/-- The 80 SHA-512 round constants (FIPS 180-4 §4.2.3: the first 64
bits of the fractional parts of the cube roots of the first 80 primes,
written here in decimal); `sha512_abc` checks the implementation against
the standard's test vector. -/
def K512 : List Nat := [
  4794697086780616226, 8158064640168781261, 13096744586834688815, 16840607885511220156,
  4131703408338449720, 6480981068601479193, 10538285296894168987, 12329834152419229976,
  15566598209576043074, 1334009975649890238, 2608012711638119052, 6128411473006802146,
  8268148722764581231, 9286055187155687089, 11230858885718282805, 13951009754708518548,
  16472876342353939154, 17275323862435702243, 1135362057144423861, 2597628984639134821,
  3308224258029322869, 5365058923640841347, 6679025012923562964, 8573033837759648693,
  10970295158949994411, 12119686244451234320, 12683024718118986047, 13788192230050041572,
  14330467153632333762, 15395433587784984357, 489312712824947311, 1452737877330783856,
  2861767655752347644, 3322285676063803686, 5560940570517711597, 5996557281743188959,
  7280758554555802590, 8532644243296465576, 9350256976987008742, 10552545826968843579,
  11727347734174303076, 12113106623233404929, 14000437183269869457, 14369950271660146224,
  15101387698204529176, 15463397548674623760, 17586052441742319658, 1182934255886127544,
  1847814050463011016, 2177327727835720531, 2830643537854262169, 3796741975233480872,
  4115178125766777443, 5681478168544905931, 6601373596472566643, 7507060721942968483,
  8399075790359081724, 8693463985226723168, 9568029438360202098, 10144078919501101548,
  10430055236837252648, 11840083180663258601, 13761210420658862357, 14299343276471374635,
  14566680578165727644, 15097957966210449927, 16922976911328602910, 17689382322260857208,
  500013540394364858, 748580250866718886, 1242879168328830382, 1977374033974150939,
  2944078676154940804, 3659926193048069267, 4368137639120453308, 4836135668995329356,
  5532061633213252278, 6448918945643986474, 6902733635092675308, 7801388544844847127]

/-- The SHA-512 initial hash value (FIPS 180-4 §5.3.5: the first 64
bits of the fractional parts of the square roots of the first 8 primes,
in decimal). -/
def H512 : List Nat := [
  7640891576956012808, 13503953896175478587, 4354685564936845355, 11912009170470909681,
  5840696475078001361, 11170449401992604703, 2270897969802886507, 6620516959819538809]

/-- Big-endian byte rendering of `n` on `w` bytes. -/
def beBytes (n w : Nat) : List Nat :=
  (List.range w).reverse.map (fun i => (n >>> (8 * i)) &&& 255)

/-- Big-endian word from a byte list. -/
def beWord (bytes : List Nat) : Nat :=
  bytes.foldl (fun acc b => acc * 256 + b) 0

/-- SHA-512 padding: append `0x80`, zeros to 112 mod 128, then the
128-bit big-endian bit length. -/
def sha512Pad (msg : List Nat) : List Nat :=
  let L := msg.length
  let zeros := (240 - (L + 1) % 128) % 128
  msg ++ [0x80] ++ List.replicate zeros 0 ++ beBytes (8 * L) 16

/-- The sixteen 64-bit words of one 128-byte block. -/
def wordsOfBlock (block : List Nat) : List Nat :=
  (List.range 16).map (fun i => beWord ((block.drop (8 * i)).take 8))

/-- Extend a message schedule by `rounds` further words. -/
def extendSchedule (w : List Nat) (rounds : Nat) : List Nat :=
  match rounds with
  | 0 => w
  | r + 1 =>
    let t := w.length
    extendSchedule
      (w ++ [add64 (add64 (smallS1 (w.getD (t - 2) 0)) (w.getD (t - 7) 0))
                   (add64 (smallS0 (w.getD (t - 15) 0)) (w.getD (t - 16) 0))]) r

/-- One SHA-512 compression round on the state `[a,b,c,d,e,f,g,h]`. -/
def compressRound (st : List Nat) (kt wt : Nat) : List Nat :=
  match st with
  | [a, b, c, d, e, f, g, h] =>
    let t1 := add64 (add64 (add64 h (bigS1 e)) (add64 (chF e f g) kt)) wt
    let t2 := add64 (bigS0 a) (majF a b c)
    [add64 t1 t2, a, b, c, add64 d t1, e, f, g]
  | st => st

/-- Process one 128-byte block against the running hash value. -/
def processBlock (H : List Nat) (block : List Nat) : List Nat :=
  let w := extendSchedule (wordsOfBlock block) 64
  let st := (List.zip K512 w).foldl (fun st p => compressRound st p.1 p.2) H
  (List.zip H st).map (fun p => add64 p.1 p.2)

/-- Split a byte list into 128-byte chunks (structural recursion on a
fuel bound of `l.length`, which is ample since each step drops 128 bytes
of a nonempty list). -/
def toChunksGo : Nat → List Nat → List (List Nat)
  | 0, _ => []
  | fuel + 1, l => if l.length = 0 then [] else l.take 128 :: toChunksGo fuel (l.drop 128)

def toChunks (l : List Nat) : List (List Nat) := toChunksGo l.length l

/-- SHA-512 digest (64 bytes) of a byte list. -/
def sha512Bytes (msg : List Nat) : List Nat :=
  let H := (toChunks (sha512Pad msg)).foldl processBlock H512
  H.foldr (fun wd acc => beBytes wd 8 ++ acc) []

def hexDigit (n : Nat) : Char :=
  if n < 10 then Char.ofNat (48 + n) else Char.ofNat (87 + n)

def byteToHex (b : Nat) : List Char := [hexDigit (b / 16), hexDigit (b % 16)]

/-- ASCII bytes of a string (all strings in scope are ASCII; Python 2
`str` objects are byte strings). -/
def strBytes (s : String) : List Nat := s.data.map Char.toNat

/-- `hashlib.sha512(s).hexdigest()`: lowercase-hex digest string. -/
def sha512Hexdigest (s : String) : String :=
  String.mk ((sha512Bytes (strBytes s)).foldr (fun b acc => byteToHex b ++ acc) [])

/-! ## `airflow/contrib/utils/kubernetes_utils.py`: job-name uniquification -/

/-- Python `sep.join(xs)`. -/
def pyJoin (sep : String) : List String → String
  | [] => ""
  | x :: xs => xs.foldl (fun acc y => acc ++ sep ++ y) x

/-- Python `s.split(sep)[-1]` (for nonempty `sep`; `splitOn` never
returns an empty list). -/
def pySplitLast (s sep : String) : String := (s.splitOn sep).getLastD ""

/--
`uniquify_job_name` from `kubernetes_utils.py`.

The Python function takes `(task_instance, context, run_timestamp=None,
job_name=None)` and resolves `job_name` from the operator's
`job_name`/`command_name` attributes, `context['execution_date']` and
`datetime.utcnow()` (or the injected `run_timestamp`); the embedding
takes the already-resolved base name and the two ISO-8601 timestamp
strings directly, which is all the function reads of those objects:

    "-".join([job_name,
              hashlib.sha512(" ".join([execution_date.isoformat(),
                                       dag_id, task_id,
                                       run_timestamp.isoformat()]))
                     .hexdigest()[:16]])
-/
def uniquify_job_name (job_name execution_date_iso dag_id task_id run_timestamp_iso : String) :
    String :=
  pyJoin "-" [job_name,
    (sha512Hexdigest
      (pyJoin " " [execution_date_iso, dag_id, task_id, run_timestamp_iso])).take 16]

/-- Lowercase-hex character class `[0-9a-f]`. -/
def isLowerHex (c : Char) : Bool := ('0' ≤ c && c ≤ '9') || ('a' ≤ c && c ≤ 'f')

/--
One candidate position for the regex
`^(.+)-[0-9a-f]{16}-[0-9a-f]{12,16}$` of `deuniquify_job_name`: group 1
is `body.take g` (nonempty, `.` does not match a newline), followed by
`'-'`, sixteen lowercase-hex characters, `'-'`, and twelve to sixteen
lowercase-hex characters running to the end of `body` (whose length is
`m`). Out-of-range `getD` lookups yield `' '`, which fails the `'-'`
tests, so the checks also enforce the index bounds.
-/
def deuniqMatchAt (body : List Char) (m g : Nat) : Bool :=
  decide (1 ≤ g) &&
  (body.take g).all (fun c => c ≠ '\n') &&
  (body.getD g ' ' == '-') &&
  ((body.drop (g + 1)).take 16).all isLowerHex &&
  (body.getD (g + 17) ' ' == '-') &&
  (body.drop (g + 18)).all isLowerHex &&
  decide (12 ≤ m - (g + 18)) && decide (m - (g + 18) ≤ 16)

/-- The end of the region the anchored match may cover: the whole
string, except that without `re.DOTALL` the `$` anchor also matches just
before one trailing newline. -/
def deuniqBound (cs : List Char) : Nat :=
  if cs.getLast? = some '\n' then cs.length - 1 else cs.length

/--
`deuniquify_job_name` from `kubernetes_utils.py`:

    re.sub('^(.+)-[0-9a-f]{16}-[0-9a-f]{12,16}$', '\\1', unique_job_name)

The greedy `(.+)` keeps the longest prefix whose remainder matches the
two hex-suffix groups, so the match position is the largest `g`
satisfying `deuniqMatchAt`; if no position matches, `re.sub` returns the
string unchanged. Without `re.DOTALL`, `$` also matches just before a
single trailing newline, in which case the newline survives the
substitution.
-/
def deuniquify_job_name (s : String) : String :=
  match (List.range (deuniqBound s.data)).reverse.find?
      (fun g => deuniqMatchAt (s.data.take (deuniqBound s.data)) (deuniqBound s.data) g) with
  | some g => String.mk (s.data.take g ++ s.data.drop (deuniqBound s.data))
  | none => s

/-! ## The XCom result store

XCom values in scope are either Python `None` or strings (the only
comparisons performed are against the string sentinel `'__EXCEPTION__'`
and the three string detail fields), so a stored value is modelled as
`Option String` (`none` = Python `None`) and the store itself as a map
from key to `Option (Option String)` (outer `none` = key absent). All
reads in `app_engine_operator.py` use `task_ids=self.task_id`, so the
task dimension is dropped. -/

def XCOM_RETURN_KEY : String := "return_value"

abbrev Store := String → Option (Option String)

/-- Modelled from the spec: `try_xcom_pull` (from
`airflow/contrib/utils/xcom.py`, which is not under `src/`) reads one
key and returns a `(found, value)` pair, distinguishing an absent key
from a key present with value `None`, with transient read errors folded
into "not found" (spec §9: a typed read that returns an option and
itself never raises). -/
def try_xcom_pull (store : Store) (key : String) : Bool × Option String :=
  match store key with
  | some v => (true, v)
  | none => (false, none)

/-- `AppEngineOperatorAsync.safe_xcom_pull`: wraps `xcom_pull`, returning
`None` both when the key is absent and on any exception. -/
def safe_xcom_pull (store : Store) (key : String) : Option String :=
  match store key with
  | some v => v
  | none => none

/-! ## `AppEngineOperatorAsync` -/

/-- Constructor arguments and ambient task context of
`AppEngineOperatorAsync` (the `uniquify_job_name` timestamps are carried
as ISO-8601 strings, see `uniquify_job_name`; `try_number` is the value
`TaskInstance(self, context['execution_date']).try_number` yields). -/
structure AsyncCfg where
  task_id : String
  dag_id : String
  command_name : String
  appengine_queue : String
  appengine_timeout : Nat := 3600
  try_number : Nat
  execution_date_iso : String
  run_timestamp_iso : String

/-- The mutable fields initialised in `AppEngineOperatorAsync.__init__`. -/
structure AsyncState where
  should_adopt : Bool := false
  finished : Bool := false
  return_value : Option String := none
  exc_message : Option String := none
  exc_type : Option String := none
  exc_callstack : Option String := none
deriving DecidableEq, Repr

def initialAsyncState : AsyncState := {}

/-- Observable effects of one `execute()` call: the async submit POST,
the poll loop's read of the default result key, and the poll loop's
backoff sleeps (in seconds). -/
inductive Event
  | submit (endpoint : String) (job_id : String) (try_number : Nat)
  | pull (key : String)
  | sleep (secs : Nat)
deriving DecidableEq, Repr

def submitsOf (evs : List Event) : List Event :=
  evs.filter fun e => match e with | .submit .. => true | _ => false

def pullsOf (evs : List Event) : List String :=
  evs.filterMap fun e => match e with | .pull k => some k | _ => none

def sleepsOf (evs : List Event) : List Nat :=
  evs.filterMap fun e => match e with | .sleep d => some d | _ => none

/-- The per-attempt pending-marker key
`'is_pending_{}'.format(try_number)`. -/
def pendingKey (cfg : AsyncCfg) : String := "is_pending_" ++ toString cfg.try_number

/-- `AppEngineOperatorAsync.retrieve_exception_details`: best-effort
fetch of the three exception detail keys via `safe_xcom_pull`. -/
def retrieve_exception_details (store : Store) (s : AsyncState) : AsyncState :=
  { s with
    exc_message := safe_xcom_pull store "__EXCEPTION_MESSAGE"
    exc_type := safe_xcom_pull store "__EXCEPTION_TYPE"
    exc_callstack := safe_xcom_pull store "__EXCEPTION_CALLSTACK" }

/-- `AppEngineOperatorAsync.save_previous_xcoms`: the adoption check. -/
def save_previous_xcoms (cfg : AsyncCfg) (store : Store) (s : AsyncState) : AsyncState :=
  let pending_tuple := try_xcom_pull store (pendingKey cfg)
  let s := if pending_tuple.1 then { s with should_adopt := true } else s
  let return_value_tuple := try_xcom_pull store XCOM_RETURN_KEY
  if return_value_tuple.1 then
    let s := { s with finished := true, return_value := return_value_tuple.2 }
    if s.return_value = some "__EXCEPTION__" then retrieve_exception_details store s else s
  else s

/-- `AppEngineOperatorAsync.schedule_job`: returns early when
`should_adopt` is set, otherwise POSTs the job (headers and the
`evaluate_xcoms` parameter resolution are configuration plumbing with no
bearing on the claims; the submit event records the endpoint, the
uniquified `job_id` and the `try_number` of the POST body). The
transport succeeding is the 2xx case; 4xx/5xx submit transport failures
are outside the claims in scope. -/
def schedule_job (cfg : AsyncCfg) (s : AsyncState) : List Event :=
  if s.should_adopt then []
  else
    [Event.submit ("/api/airflow_v2/async/" ++ cfg.command_name)
      (uniquify_job_name (pySplitLast cfg.command_name ".")
        cfg.execution_date_iso cfg.dag_id cfg.task_id cfg.run_timestamp_iso)
      cfg.try_number]

inductive AErr
  | pollTimeout
  | remoteTaskFailed (msg : Option String)
deriving DecidableEq, Repr

/--
The poll loop of `AppEngineOperatorAsync.poll_status`. Wall-clock time
is idealised to advance only during `time.sleep`, so `elapsed` is the
sum of sleeps issued so far and the loop's
`remaining_secs = appengine_timeout - elapsed ≤ 0` test is
`appengine_timeout ≤ elapsed`. The loop is written with a structural
fuel argument; `poll_status` passes `appengine_timeout + 1`, which is
saturating because every iteration sleeps at least one second
(`pollLoop_fuel_saturated`), so the fuel-exhaustion branch (which
repeats the timeout outcome the real loop is about to take) is never
reached. On a successful read the loop returns the raw value so the
caller can run the sentinel check and result phase.
-/
def pollLoop (cfg : AsyncCfg) (store : Store) :
    Nat → Nat → Nat → Except AErr (Option String) × List Event
  | 0, _, _ => (.error .pollTimeout, [])
  | fuel + 1, i, elapsed =>
    if cfg.appengine_timeout ≤ elapsed then (.error .pollTimeout, [])
    else
      match try_xcom_pull store XCOM_RETURN_KEY with
      | (false, _) =>
        let d := min 60 (2 ^ i)
        let r := pollLoop cfg store fuel (i + 1) (elapsed + d)
        (r.1, .pull XCOM_RETURN_KEY :: .sleep d :: r.2)
      | (true, v) => (.ok v, [.pull XCOM_RETURN_KEY])

/-- The result phase at the end of `poll_status`: on the failure
sentinel, raise `AirflowException(self.exc_message)` (the
`'<UNKNOWN>'` placeholders appear only in the `logging.error` line, not
in the raised error). -/
def resultPhase (retval : Option String) (s : AsyncState) : Except AErr Unit :=
  if retval = some "__EXCEPTION__" then .error (.remoteTaskFailed s.exc_message)
  else .ok ()

/-- `AppEngineOperatorAsync.poll_status`: skip the loop when already
`finished` (adoption short-circuit), else poll; the in-loop
`retrieve_exception_details` on the sentinel is applied to the state
before the result phase. -/
def poll_status (cfg : AsyncCfg) (store : Store) (s : AsyncState) :
    Except AErr Unit × List Event :=
  if s.finished then (resultPhase s.return_value s, [])
  else
    let p := pollLoop cfg store (cfg.appengine_timeout + 1) 0 0
    match p.1 with
    | .error e => (.error e, p.2)
    | .ok v =>
      let s := if v = some "__EXCEPTION__" then retrieve_exception_details store s else s
      (resultPhase v s, p.2)

/-- `AppEngineOperatorAsync.execute`: `schedule_job` then `poll_status`
(the `try/except/finally` only logs and re-raises). -/
def asyncExecute (cfg : AsyncCfg) (store : Store) (s : AsyncState) :
    Except AErr Unit × List Event :=
  let sevs := schedule_job cfg s
  let p := poll_status cfg store s
  (p.1, sevs ++ p.2)

/-- Modelled from the spec: the orchestrator's task runner (the fork's
`TaskInstance`, not under `src/`) performs the adoption check
`save_previous_xcoms` before invoking `execute` (spec §2 data flow and
§4.2 "Adoption check (runs before submission)"). -/
def executeTaskRun (cfg : AsyncCfg) (store : Store) : Except AErr Unit × List Event :=
  asyncExecute cfg store (save_previous_xcoms cfg store initialAsyncState)

/-! ## `AppEngineOperatorSync` -/

/-- A decoded response body: the four decode outcomes of
`AppEngineOperatorSync.execute` (the JSON/YAML parsers themselves are
library calls; the model records which decoder was applied to which
text). `response.text` and `response.content` are both carried as the
one `content` string (ASCII in scope). -/
inductive Body
  | jsonOf (s : String)
  | textOf (s : String)
  | yamlOf (s : String)
  | bytesOf (s : String)
deriving DecidableEq, Repr

structure Response where
  status : Nat
  contentType : String
  content : String

inductive SyncErr
  | remoteRequestFailed (status : Nat)
deriving DecidableEq, Repr

/-- Modelled from the spec: `HttpHook.run` (airflow core, not under
`src/`) raises on any 4xx or 5xx response status ("this will throw on
any 4xx or 5xx"); otherwise it hands back the response. -/
def hook_run (r : Response) : Except SyncErr Response :=
  if 400 ≤ r.status then .error (.remoteRequestFailed r.status) else .ok r

/-- The sync dispatcher's XCom store: written under `XCOM_RETURN_KEY`
with the decoded body. -/
abbrev SyncStore := String → Option Body

/-- Python `header.split(';')[0]`. -/
def pyHeadSplit (s sep : String) : String := (s.splitOn sep).headD ""

/-- `AppEngineOperatorSync.execute`: run the POST (raising on 4xx/5xx
before anything is written), and on a non-empty body decode it by the
`';'`-stripped content type and push it under the default key. -/
def syncExecute (store : SyncStore) (r : Response) : Except SyncErr Unit × SyncStore :=
  match hook_run r with
  | .error e => (.error e, store)
  | .ok response =>
    if response.content ≠ "" then
      let content_type := pyHeadSplit response.contentType ";"
      let body :=
        if content_type = "application/json" then Body.jsonOf response.content
        else if content_type = "text/plain" then Body.textOf response.content
        else if content_type ∈ ["text/yaml", "text/x-yaml", "text/vnd.yaml",
                                "application/yaml", "application/x-yaml"] then
          Body.yamlOf response.content
        else Body.bytesOf response.content
      (.ok (), fun k => if k = XCOM_RETURN_KEY then some body else store k)
    else (.ok (), store)

/-! ## `AppEngineOperator` (file-sentinel variant) -/

inductive FileErr
  | timeout
  | failureFileFound (path : String)
deriving DecidableEq, Repr

/--
The `while` loop of `AppEngineOperator.poll_status_files`, with
wall-clock time idealised to advance only during `time.sleep` (the loop
guard `(utcnow() - start_time).total_seconds() < 3600` becomes
`elapsed < 3600`). Each iteration sleeps `min(60, 5 * 2**i)` first, then
checks the success marker, then the failure marker. The structural fuel
`3600 + 1` passed by `poll_status_files` is saturating because every
iteration sleeps at least 5 seconds (`pollFilesLoop_fuel_saturated`);
the fuel-exhaustion branch repeats the timeout outcome and is never
reached. `ex` is the `check_gcs_file_exists` oracle (the
`GoogleCloudStorageHook.exists` call is an external collaborator). -/
def pollFilesLoop (ex : String → Bool) (bucket job_id : String) :
    Nat → Nat → Nat → Except FileErr Unit
  | 0, _, _ => .error .timeout
  | fuel + 1, i, elapsed =>
    if 3600 ≤ elapsed then .error .timeout
    else
      let d := min 60 (5 * 2 ^ i)
      if ex (job_id ++ "/succeeded") then .ok ()
      else if ex (job_id ++ "/failed") then
        .error (.failureFileFound (bucket ++ "/" ++ (job_id ++ "/failed")))
      else pollFilesLoop ex bucket job_id fuel (i + 1) (elapsed + d)

/-- `AppEngineOperator.poll_status_files`. -/
def poll_status_files (ex : String → Bool) (bucket job_id : String) : Except FileErr Unit :=
  pollFilesLoop ex bucket job_id (3600 + 1) 0 0

/-! ## `AppEngineOperator.__init__` -/

inductive PyErr
  | typeErr
deriving DecidableEq, Repr

/-- Python `d[k] = v` on an optional dictionary: subscript assignment on
`None` raises `TypeError: 'NoneType' object does not support item
assignment`. -/
def pySetItem (d : Option (List (String × String))) (k v : String) :
    Except PyErr (List (String × String)) :=
  match d with
  | none => .error .typeErr
  | some m => .ok ((k, v) :: m.filter (fun p => p.1 ≠ k))

structure AppEngineOperatorState where
  task_id : String
  http_conn_id : String
  bucket : String
  command_params : List (String × String)
  job_id : String
  google_cloud_conn_id : String
deriving DecidableEq, Repr

/-- `AppEngineOperator.__init__`: note that
`command_params['job_id'] = job_id` runs *before* the
`command_params or {}` defaulting, so a `None` `command_params` fails
the item assignment; after a successful assignment, the dictionary is
non-empty, hence truthy, and `or {}` keeps it. -/
def appEngineOperatorInit (task_id http_conn_id bucket job_id : String)
    (command_params : Option (List (String × String)))
    (google_cloud_conn_id : String) :
    Except PyErr AppEngineOperatorState := do
  let cp ← pySetItem command_params "job_id" job_id
  pure { task_id, http_conn_id, bucket, command_params := cp, job_id, google_cloud_conn_id }

/-- The backoff sleeps of the async poll loop, attempt counter starting
at `i`: `min(60, 2**i), min(60, 2**(i+1)), ...` for `n` iterations. -/
def backoffSeq (i n : Nat) : List Nat := (List.range n).map (fun j => min 60 (2 ^ (i + j)))

/-- The C4 decomposition, following the spec's words plus the regex's
anchor semantics: a nonempty, newline-free base prefix (`.` does not
match a newline), `'-'`, sixteen lowercase-hex characters, `'-'`, and
twelve to sixteen lowercase-hex characters, the whole either ending the
string (`t = []`) or ending just before a single final newline
(`t = ['\n']`, where `$` also matches without `re.DOTALL`). -/
def HexSuffixDecomp (cs p a b t : List Char) : Prop :=
  cs = p ++ '-' :: (a ++ '-' :: (b ++ t)) ∧ (t = [] ∨ t = ['\n']) ∧
  ('\n' : Char) ∉ p ∧ p ≠ [] ∧
  a.length = 16 ∧ (∀ c ∈ a, isLowerHex c = true) ∧
  12 ≤ b.length ∧ b.length ≤ 16 ∧ (∀ c ∈ b, isLowerHex c = true)

/-! ## Concrete fixtures used by witnesses and counterexamples -/

def cfgEx : AsyncCfg :=
  { task_id := "task", dag_id := "dag",
    command_name := "engine.core.commands.ExCommand",
    appengine_queue := "default-queue", try_number := 1,
    execution_date_iso := "2016-01-01T00:00:00",
    run_timestamp_iso := "2017-01-01T00:00:00" }

/-- A result store in which no key is populated. -/
def storeEmpty : Store := fun _ => none

/-- A result store holding only the per-attempt pending marker for try 1. -/
def storePending : Store :=
  fun k => if k = "is_pending_1" then some (some "1") else none

/-- A result store holding only a success payload under the default key. -/
def storeDone : Store :=
  fun k => if k = "return_value" then some (some "done") else none

/-- A result store holding the failure sentinel under the default key
and none of the three exception detail keys. -/
def storeExc : Store :=
  fun k => if k = "return_value" then some (some "__EXCEPTION__") else none

/-- An empty XCom store for the sync dispatcher. -/
def syncStoreEmpty : SyncStore := fun _ => none

/-- A JSON response whose content type carries a charset parameter. -/
def responseJson : Response :=
  { status := 200, contentType := "application/json; charset=utf-8", content := "null" }

/-! # Theorems -/

/-- FIPS 180-4 test vector for the SHA-512 embedding. -/
theorem sha512_abc :
    sha512Hexdigest "abc" =
      "ddaf35a193617abacc417349ae20413112e6fa4e89a97ea20a9eeee64b55d39a2192992a274fc1a836ba3c23a3feebbd454d4423643ce80e2a9ac94fa54ca49f" := by
  decide

/-- Every iteration of the async poll loop sleeps at least one second. -/
theorem one_le_backoff (i : Nat) : 1 ≤ min 60 (2 ^ i) :=
  le_min (by decide) (Nat.two_pow_pos i)

/-- The fuel `appengine_timeout + 1` handed to `pollLoop` is saturating:
adding more fuel does not change the result, because each iteration
consumes at least one second of the timeout budget. Hence the fuelled
loop agrees with the unbounded `while` loop of `poll_status`. -/
theorem pollLoop_fuel_saturated (cfg : AsyncCfg) (store : Store) :
    ∀ fuel i elapsed, cfg.appengine_timeout ≤ elapsed + fuel →
      pollLoop cfg store (fuel + 1) i elapsed = pollLoop cfg store fuel i elapsed := by
  intro fuel
  induction fuel with
  | zero =>
    intro i elapsed h
    simp only [Nat.add_zero] at h
    simp [pollLoop, h]
  | succ fuel ih =>
    intro i elapsed h
    conv_lhs => rw [pollLoop]
    conv_rhs => rw [pollLoop]
    by_cases hto : cfg.appengine_timeout ≤ elapsed
    · simp [hto]
    · have hrec : cfg.appengine_timeout ≤ (elapsed + min 60 (2 ^ i)) + fuel := by
        have h1 : 1 ≤ min 60 (2 ^ i) := one_le_backoff i
        omega
      simp only [hto, if_false]
      cases htp : try_xcom_pull store XCOM_RETURN_KEY with
      | mk found v =>
        cases found
        · simp only [ih (i + 1) (elapsed + min 60 (2 ^ i)) hrec]
        · rfl

/-- Every iteration of the file-sentinel poll loop sleeps at least five
seconds. -/
theorem five_le_file_backoff (i : Nat) : 5 ≤ min 60 (5 * 2 ^ i) := by
  refine le_min (by decide) ?_
  have := Nat.two_pow_pos i
  omega

/-- The fuel `3600 + 1` handed to `pollFilesLoop` is saturating (each
iteration consumes at least five seconds of the 3600-second budget), so
the fuelled loop agrees with the unbounded `while` loop of
`poll_status_files`. -/
theorem pollFilesLoop_fuel_saturated (ex : String → Bool) (bucket job_id : String) :
    ∀ fuel i elapsed, 3600 ≤ elapsed + fuel →
      pollFilesLoop ex bucket job_id (fuel + 1) i elapsed =
        pollFilesLoop ex bucket job_id fuel i elapsed := by
  intro fuel
  induction fuel with
  | zero =>
    intro i elapsed h
    simp only [Nat.add_zero] at h
    simp [pollFilesLoop, h]
  | succ fuel ih =>
    intro i elapsed h
    conv_lhs => rw [pollFilesLoop]
    conv_rhs => rw [pollFilesLoop]
    by_cases hto : 3600 ≤ elapsed
    · simp [hto]
    · have hrec : 3600 ≤ (elapsed + min 60 (5 * 2 ^ i)) + fuel := by
        have h5 : 5 ≤ min 60 (5 * 2 ^ i) := five_le_file_backoff i
        omega
      simp only [hto, if_false]
      by_cases hs : ex (job_id ++ "/succeeded")
      · simp [hs]
      · by_cases hf : ex (job_id ++ "/failed")
        · simp [hs, hf, ih (i + 1) (elapsed + min 60 (5 * 2 ^ i)) hrec]
        · simp [hs, hf, ih (i + 1) (elapsed + min 60 (5 * 2 ^ i)) hrec]

/-- C8: `uniquify_job_name` is a pure function of its five inputs, and
its output is exactly the base name, a `'-'`, and the first 16
lowercase-hex characters of the SHA-512 digest of the space-separated
concatenation of the logical run timestamp (ISO-8601), the workflow
(dag) id, the step (task) id and the wall-clock timestamp (ISO-8601). -/
theorem uniquify_job_name_shape (job_name e d t r : String) :
    uniquify_job_name job_name e d t r =
      job_name ++ "-" ++ (sha512Hexdigest (e ++ " " ++ d ++ " " ++ t ++ " " ++ r)).take 16 := by
  rfl

/-- C10: constructing `AppEngineOperator` with `command_params` left at
its default `None` raises a `TypeError`, because
`command_params['job_id'] = job_id` runs before the `or {}` defaulting;
the optional-looking parameter is effectively mandatory. -/
theorem appEngineOperatorInit_none_fails
    (task_id http_conn_id bucket job_id google_cloud_conn_id : String) :
    appEngineOperatorInit task_id http_conn_id bucket job_id none google_cloud_conn_id =
      .error .typeErr := by
  rfl

/-- C9: in each iteration of `poll_status_files`, the success marker is
checked before the failure marker, so whenever the `<job_id>/succeeded`
object exists the poll returns success — regardless of whether the
`<job_id>/failed` object also exists. -/
theorem poll_status_files_success_first (ex : String → Bool) (bucket job_id : String)
    (h : ex (job_id ++ "/succeeded") = true) :
    poll_status_files ex bucket job_id = .ok () := by
  simp [poll_status_files, pollFilesLoop, h]

/-- Witness for C9: with both marker objects present, the poll returns
success. -/
theorem poll_status_files_success_first_witness :
    (fun f => f == "j/succeeded" || f == "j/failed") ("j" ++ "/succeeded") = true ∧
      poll_status_files (fun f => f == "j/succeeded" || f == "j/failed") "b" "j" = .ok () :=
  ⟨by decide, poll_status_files_success_first _ "b" "j" (by decide)⟩

/-- C3 (code bug): evaluating the code at the failing input. The
round-trip through `deuniquify_job_name` does *not* recover the base
name: `uniquify_job_name` appends a single `-<16 hex>` group, while the
regex of `deuniquify_job_name` only matches names carrying *two*
trailing hex groups, so the uniquified name comes back unchanged,
contradicting `deuniquify_job_name`'s own docstring ("Strips all the
magic from a job name made unique by uniquify_job_name"). -/
theorem deuniquify_uniquify_roundtrip_fails :
    deuniquify_job_name
        (uniquify_job_name "myjob" "2016-01-01T00:00:00" "dag" "task" "2017-01-01T00:00:00") =
      "myjob-b72ee10cd653bde7" ∧
    "myjob-b72ee10cd653bde7" ≠ "myjob" := by
  constructor
  · decide
  · decide

/-- Counterexample to C4 as stated: a name with only the single
`-<16 hex>` suffix is *not* stripped — the second `-<12..16 hex>` group
is mandatory in the regex, so the input comes back unchanged instead of
as `"foo"`. -/
theorem deuniquify_single_suffix_not_stripped :
    deuniquify_job_name "foo-0123456789abcdef" = "foo-0123456789abcdef" ∧
      deuniquify_job_name "foo-0123456789abcdef" ≠ "foo" := by
  constructor
  · decide
  · decide

/-! ## Helper lemmas about the async dispatcher -/

theorem try_xcom_pull_fst (store : Store) (k : String) :
    (try_xcom_pull store k).1 = (store k).isSome := by
  unfold try_xcom_pull
  cases store k <;> rfl

theorem sleepsOf_schedule (cfg : AsyncCfg) (s : AsyncState) :
    sleepsOf (schedule_job cfg s) = [] := by
  unfold schedule_job
  split <;> rfl

theorem pullsOf_schedule (cfg : AsyncCfg) (s : AsyncState) :
    pullsOf (schedule_job cfg s) = [] := by
  unfold schedule_job
  split <;> rfl

/-- `schedule_job` emits the submit request exactly when `should_adopt`
is off. -/
theorem submitsOf_schedule (cfg : AsyncCfg) (s : AsyncState) :
    submitsOf (schedule_job cfg s) = [] ↔ s.should_adopt = true := by
  unfold schedule_job
  cases s.should_adopt <;> simp [submitsOf]

/-- The poll loop never emits a submit request. -/
theorem pollLoop_no_submit (cfg : AsyncCfg) (store : Store) :
    ∀ fuel i elapsed, submitsOf (pollLoop cfg store fuel i elapsed).2 = [] := by
  intro fuel
  induction fuel with
  | zero => intro i elapsed; rfl
  | succ fuel ih =>
    intro i elapsed
    rw [pollLoop]
    by_cases hto : cfg.appengine_timeout ≤ elapsed
    · simp [hto, submitsOf]
    · simp only [if_neg hto]
      cases htp : try_xcom_pull store XCOM_RETURN_KEY with
      | mk found v =>
        cases found
        · simpa [submitsOf] using ih (i + 1) (elapsed + min 60 (2 ^ i))
        · simp [submitsOf]

theorem backoffSeq_succ (i n : Nat) :
    backoffSeq i (n + 1) = min 60 (2 ^ i) :: backoffSeq (i + 1) n := by
  unfold backoffSeq
  rw [List.range_succ_eq_map, List.map_cons, List.map_map]
  congr 1
  apply List.map_congr_left
  intro j _
  show min 60 (2 ^ (i + Nat.succ j)) = min 60 (2 ^ (i + 1 + j))
  have hx : i + Nat.succ j = i + 1 + j := by omega
  rw [hx]

/-- Against a store in which the default result key never appears, the
poll loop (given saturating fuel) issues exactly the backoff sleeps
`min(60, 2**i), min(60, 2**(i+1)), ...`, continuing precisely until the
slept seconds first reach the timeout budget, and ends in
`pollTimeout`. -/
theorem pollLoop_never_terminal (cfg : AsyncCfg) (store : Store)
    (h : store XCOM_RETURN_KEY = none) :
    ∀ fuel i elapsed, cfg.appengine_timeout ≤ elapsed + fuel →
      (pollLoop cfg store fuel i elapsed).1 = .error .pollTimeout ∧
      ∃ n, sleepsOf (pollLoop cfg store fuel i elapsed).2 = backoffSeq i n ∧
        cfg.appengine_timeout ≤ elapsed + (backoffSeq i n).sum ∧
        ∀ m < n, elapsed + (backoffSeq i m).sum < cfg.appengine_timeout := by
  intro fuel
  induction fuel with
  | zero =>
    intro i elapsed hle
    simp only [Nat.add_zero] at hle
    exact ⟨rfl, 0, rfl, by simpa [backoffSeq] using hle,
      fun m hm => absurd hm (Nat.not_lt_zero m)⟩
  | succ fuel ih =>
    intro i elapsed hle
    rw [pollLoop]
    by_cases hto : cfg.appengine_timeout ≤ elapsed
    · rw [if_pos hto]
      exact ⟨rfl, 0, rfl, by simpa [backoffSeq] using hto,
        fun m hm => absurd hm (Nat.not_lt_zero m)⟩
    · rw [if_neg hto]
      have htp : try_xcom_pull store XCOM_RETURN_KEY = (false, none) := by
        simp [try_xcom_pull, h]
      rw [htp]
      obtain ⟨hres, n, hsl, hsum, hpart⟩ :=
        ih (i + 1) (elapsed + min 60 (2 ^ i))
          (by have := one_le_backoff i; omega)
      refine ⟨hres, n + 1, ?_, ?_, ?_⟩
      · rw [backoffSeq_succ]
        simpa [sleepsOf, List.filterMap_cons] using hsl
      · rw [backoffSeq_succ]
        simp only [List.sum_cons]
        omega
      · intro m hm
        cases m with
        | zero =>
          simpa [backoffSeq] using Nat.lt_of_not_le hto
        | succ m =>
          have := hpart m (by omega)
          rw [backoffSeq_succ]
          simp only [List.sum_cons]
          omega

/-- Against a store with no default result key, the adoption check
leaves `finished` off. -/
theorem save_not_finished (cfg : AsyncCfg) (store : Store) (s : AsyncState)
    (h : store XCOM_RETURN_KEY = none) :
    (save_previous_xcoms cfg store s).finished = s.finished := by
  unfold save_previous_xcoms
  simp only [try_xcom_pull, h]
  split
  · next h2 => exact absurd h2 (by simp)
  · split <;> rfl

/-- C6: against a result store that never yields a terminal value, the
async `execute()` fails with `PollTimeout`, and the backoff sleeps it
issues before failing are exactly `min(60, 2**attempt)` seconds with the
attempt counter starting at 0 — the non-decreasing sequence
1, 2, 4, 8, 16, 32, 60, 60, ... — continuing precisely until the elapsed
(slept) seconds first reach the configured `appengine_timeout` (default
3600). -/
theorem async_poll_timeout_backoff (cfg : AsyncCfg) (store : Store)
    (h : store XCOM_RETURN_KEY = none) :
    (executeTaskRun cfg store).1 = .error .pollTimeout ∧
    ∃ n, sleepsOf (executeTaskRun cfg store).2 = (List.range n).map (fun a => min 60 (2 ^ a)) ∧
      cfg.appengine_timeout ≤ (((List.range n).map (fun a => min 60 (2 ^ a))).sum) ∧
      ∀ m < n, (((List.range m).map (fun a => min 60 (2 ^ a))).sum) < cfg.appengine_timeout := by
  have hfin : (save_previous_xcoms cfg store initialAsyncState).finished = false :=
    save_not_finished cfg store initialAsyncState h
  obtain ⟨hres, n, hsl, hsum, hpart⟩ :=
    pollLoop_never_terminal cfg store h (cfg.appengine_timeout + 1) 0 0 (by omega)
  have hps : poll_status cfg store (save_previous_xcoms cfg store initialAsyncState) =
      (.error .pollTimeout,
        (pollLoop cfg store (cfg.appengine_timeout + 1) 0 0).2) := by
    unfold poll_status
    rw [hfin]
    simp only [Bool.false_eq_true, if_false]
    rw [hres]
  constructor
  · show (poll_status cfg store (save_previous_xcoms cfg store initialAsyncState)).1 = _
    rw [hps]
  · refine ⟨n, ?_, by simpa [backoffSeq] using hsum, ?_⟩
    · show sleepsOf (schedule_job cfg (save_previous_xcoms cfg store initialAsyncState) ++
        (poll_status cfg store (save_previous_xcoms cfg store initialAsyncState)).2) = _
      rw [hps]
      rw [sleepsOf, List.filterMap_append]
      rw [← sleepsOf, ← sleepsOf, sleepsOf_schedule]
      simpa [backoffSeq] using hsl
    · intro m hm
      have := hpart m hm
      simpa [backoffSeq] using this

/-- Witness for C6: the empty store never yields a terminal value, and
`execute()` times out with the documented backoff sleeps. -/
theorem async_poll_timeout_backoff_witness :
    storeEmpty XCOM_RETURN_KEY = none ∧
    ((executeTaskRun cfgEx storeEmpty).1 = .error .pollTimeout ∧
    ∃ n, sleepsOf (executeTaskRun cfgEx storeEmpty).2 =
        (List.range n).map (fun a => min 60 (2 ^ a)) ∧
      cfgEx.appengine_timeout ≤ (((List.range n).map (fun a => min 60 (2 ^ a))).sum) ∧
      ∀ m < n, (((List.range m).map (fun a => min 60 (2 ^ a))).sum) < cfgEx.appengine_timeout) :=
  ⟨rfl, async_poll_timeout_backoff cfgEx storeEmpty rfl⟩

/-- A present pending marker turns `should_adopt` on. -/
theorem save_adopt_of_pending (cfg : AsyncCfg) (store : Store) (s : AsyncState)
    (v : Option String) (h : store (pendingKey cfg) = some v) :
    (save_previous_xcoms cfg store s).should_adopt = true := by
  unfold save_previous_xcoms retrieve_exception_details
  simp only [try_xcom_pull, h]
  cases hrv : store XCOM_RETURN_KEY <;> simp <;> split <;> rfl

/-- On a fresh state, the adoption check sets `should_adopt` exactly
when the pending marker is present. -/
theorem save_adopt_iff (cfg : AsyncCfg) (store : Store) (s : AsyncState)
    (hs : s.should_adopt = false) :
    (save_previous_xcoms cfg store s).should_adopt = (store (pendingKey cfg)).isSome := by
  unfold save_previous_xcoms retrieve_exception_details
  cases hpk : store (pendingKey cfg) <;>
    cases hrv : store XCOM_RETURN_KEY <;>
      simp [try_xcom_pull, hpk, hrv, hs] <;> split <;> simp [hs]

/-- With the default key present, the adoption check marks the run
finished, records the fetched value, and (for the failure sentinel)
fetches the exception details. -/
theorem save_finished_of_ret (cfg : AsyncCfg) (store : Store) (s : AsyncState)
    (v : Option String) (h : store XCOM_RETURN_KEY = some v) :
    (save_previous_xcoms cfg store s).finished = true ∧
    (save_previous_xcoms cfg store s).return_value = v ∧
    (v = some "__EXCEPTION__" →
      (save_previous_xcoms cfg store s).exc_message =
        safe_xcom_pull store "__EXCEPTION_MESSAGE") := by
  unfold save_previous_xcoms retrieve_exception_details
  simp only [try_xcom_pull, h]
  split_ifs <;> simp_all

/-- When adoption short-circuits, `poll_status` skips the loop
entirely. -/
theorem poll_status_finished (cfg : AsyncCfg) (store : Store) (s : AsyncState)
    (hf : s.finished = true) :
    poll_status cfg store s = (resultPhase s.return_value s, []) := by
  unfold poll_status
  rw [hf]
  simp

/-- When the run is not already finished, the events of `poll_status`
are those of the poll loop. -/
theorem poll_status_events (cfg : AsyncCfg) (store : Store) (s : AsyncState)
    (hf : s.finished = false) :
    (poll_status cfg store s).2 = (pollLoop cfg store (cfg.appengine_timeout + 1) 0 0).2 := by
  unfold poll_status
  rw [hf]
  simp only [Bool.false_eq_true, if_false]
  split <;> rfl

/-- `poll_status` never emits a submit request. -/
theorem poll_status_no_submit (cfg : AsyncCfg) (store : Store) (s : AsyncState) :
    submitsOf (poll_status cfg store s).2 = [] := by
  unfold poll_status
  by_cases hf : s.finished
  · rw [if_pos hf]; rfl
  · rw [if_neg hf]
    rcases hp : (pollLoop cfg store (cfg.appengine_timeout + 1) 0 0).1 with e | v <;>
      simp only [hp] <;> exact pollLoop_no_submit cfg store _ 0 0

/-- With `should_adopt` on, `schedule_job` sends nothing. -/
theorem schedule_job_adopted (cfg : AsyncCfg) (s : AsyncState)
    (h : s.should_adopt = true) : schedule_job cfg s = [] := by
  unfold schedule_job
  rw [h]
  rfl

/-- C1: whenever the per-attempt pending marker is present at
adoption-check time, the submit request is never sent (the submit
endpoint receives zero calls), and — as long as no terminal value is
present and the timeout budget is positive — the call proceeds directly
to polling: the first observable event is the poll loop's read of the
default result key. -/
theorem async_pending_skips_submit (cfg : AsyncCfg) (store : Store)
    (v : Option String) (h : store (pendingKey cfg) = some v) :
    submitsOf (executeTaskRun cfg store).2 = [] ∧
    (store XCOM_RETURN_KEY = none → 0 < cfg.appengine_timeout →
      (executeTaskRun cfg store).2.head? = some (.pull XCOM_RETURN_KEY)) := by
  have hadopt := save_adopt_of_pending cfg store initialAsyncState v h
  constructor
  · show submitsOf (schedule_job cfg _ ++ (poll_status cfg store _).2) = []
    rw [submitsOf, List.filter_append, ← submitsOf, ← submitsOf,
      schedule_job_adopted cfg _ hadopt, poll_status_no_submit]
    rfl
  · intro hrv ht
    have hfin : (save_previous_xcoms cfg store initialAsyncState).finished = false :=
      save_not_finished cfg store initialAsyncState hrv
    have htp : try_xcom_pull store XCOM_RETURN_KEY = (false, none) := by
      simp [try_xcom_pull, hrv]
    show (schedule_job cfg _ ++ (poll_status cfg store _).2).head? = _
    rw [schedule_job_adopted cfg _ hadopt, List.nil_append,
      poll_status_events cfg store _ hfin, pollLoop, if_neg (by omega), htp]
    rfl

/-- Witness for C1: a store holding only `is_pending_1`. -/
theorem async_pending_skips_submit_witness :
    storePending (pendingKey cfgEx) = some (some "1") ∧
    (submitsOf (executeTaskRun cfgEx storePending).2 = [] ∧
    (storePending XCOM_RETURN_KEY = none → 0 < cfgEx.appengine_timeout →
      (executeTaskRun cfgEx storePending).2.head? = some (.pull XCOM_RETURN_KEY))) :=
  ⟨by decide, async_pending_skips_submit cfgEx storePending (some "1") (by decide)⟩

/-- Counterexample to C2 as stated: with the default result key already
populated but the per-attempt pending marker absent, `schedule_job`
still sends the submit request — `should_adopt` is driven only by the
pending marker, so the claimed "submission is skipped entirely" fails. -/
theorem async_finished_still_submits :
    storeDone XCOM_RETURN_KEY = some (some "done") ∧
    storeDone (pendingKey cfgEx) = none ∧
    (submitsOf (executeTaskRun cfgEx storeDone).2).length = 1 := by
  refine ⟨by decide, by decide, by decide⟩

/-- C2 (amended): with the default result key already populated at
adoption-check time, the poll loop is skipped entirely (no poll reads,
no sleeps) and the call goes straight to the result phase using the
fetched value; the submit request, however, is skipped only when the
per-attempt pending marker is also present. -/
theorem async_finished_short_circuit (cfg : AsyncCfg) (store : Store)
    (v : Option String) (h : store XCOM_RETURN_KEY = some v) :
    sleepsOf (executeTaskRun cfg store).2 = [] ∧
    pullsOf (executeTaskRun cfg store).2 = [] ∧
    (submitsOf (executeTaskRun cfg store).2 = [] ↔
      (store (pendingKey cfg)).isSome = true) ∧
    (executeTaskRun cfg store).1 =
      (if v = some "__EXCEPTION__"
       then .error (.remoteTaskFailed (safe_xcom_pull store "__EXCEPTION_MESSAGE"))
       else .ok ()) := by
  obtain ⟨hfin, hrv, hexc⟩ := save_finished_of_ret cfg store initialAsyncState v h
  have hps := poll_status_finished cfg store (save_previous_xcoms cfg store initialAsyncState) hfin
  refine ⟨?_, ?_, ?_, ?_⟩
  · show sleepsOf (schedule_job cfg _ ++ (poll_status cfg store _).2) = []
    rw [hps, sleepsOf, List.filterMap_append, ← sleepsOf, ← sleepsOf, sleepsOf_schedule]
    rfl
  · show pullsOf (schedule_job cfg _ ++ (poll_status cfg store _).2) = []
    rw [hps, pullsOf, List.filterMap_append, ← pullsOf, ← pullsOf, pullsOf_schedule]
    rfl
  · show submitsOf (schedule_job cfg _ ++ (poll_status cfg store _).2) = [] ↔ _
    rw [hps, submitsOf, List.filter_append, ← submitsOf, ← submitsOf]
    show submitsOf (schedule_job cfg _) ++ submitsOf [] = [] ↔ _
    rw [show submitsOf ([] : List Event) = [] from rfl, List.append_nil,
      submitsOf_schedule, save_adopt_iff cfg store initialAsyncState rfl]
  · show (poll_status cfg store _).1 = _
    rw [hps]
    show resultPhase _ _ = _
    unfold resultPhase
    rw [hrv]
    by_cases hv : v = some "__EXCEPTION__"
    · rw [if_pos hv, if_pos hv, hexc hv]
    · rw [if_neg hv, if_neg hv]

/-- Witness for C2 (amended): a store holding only a success payload. -/
theorem async_finished_short_circuit_witness :
    storeDone XCOM_RETURN_KEY = some (some "done") ∧
    (sleepsOf (executeTaskRun cfgEx storeDone).2 = [] ∧
    pullsOf (executeTaskRun cfgEx storeDone).2 = [] ∧
    (submitsOf (executeTaskRun cfgEx storeDone).2 = [] ↔
      (storeDone (pendingKey cfgEx)).isSome = true) ∧
    (executeTaskRun cfgEx storeDone).1 =
      (if (some "done" : Option String) = some "__EXCEPTION__"
       then .error (.remoteTaskFailed (safe_xcom_pull storeDone "__EXCEPTION_MESSAGE"))
       else .ok ())) :=
  ⟨by decide, async_finished_short_circuit cfgEx storeDone (some "done") (by decide)⟩

/-- Counterexample to C5 as stated: with the failure sentinel present
and zero detail keys populated, the raised error's message is Python
`None`, not the `'<UNKNOWN>'` placeholder — the placeholder appears only
in the log line. -/
theorem async_exception_message_not_placeholder :
    storeExc "__EXCEPTION_MESSAGE" = none ∧
    (executeTaskRun cfgEx storeExc).1 = .error (.remoteTaskFailed none) ∧
    AErr.remoteTaskFailed none ≠ AErr.remoteTaskFailed (some "<UNKNOWN>") := by
  refine ⟨by decide, by rfl, by decide⟩

/-- C5 (amended): when the terminal poll value equals the failure
sentinel `'__EXCEPTION__'`, `execute()` always fails with a
`RemoteTaskFailed` error whose message is exactly the value fetched
best-effort from the `'__EXCEPTION_MESSAGE'` key — the fetched string
when present, Python `None` when absent. Each of the three detail keys
is independently optional (`safe_xcom_pull` folds every failure into
`None`), and a missing key never causes a secondary error in the result
phase; the `'<UNKNOWN>'` placeholder appears only in logging. -/
theorem async_exception_result (cfg : AsyncCfg) (store : Store)
    (h : store XCOM_RETURN_KEY = some (some "__EXCEPTION__"))
    (ht : 0 < cfg.appengine_timeout) :
    (poll_status cfg store initialAsyncState).1 =
      .error (.remoteTaskFailed (safe_xcom_pull store "__EXCEPTION_MESSAGE")) := by
  unfold poll_status
  rw [show initialAsyncState.finished = false from rfl]
  simp only [Bool.false_eq_true, if_false]
  have hloop : pollLoop cfg store (cfg.appengine_timeout + 1) 0 0 =
      (.ok (some "__EXCEPTION__"), [.pull XCOM_RETURN_KEY]) := by
    rw [pollLoop, if_neg (by omega),
      show try_xcom_pull store XCOM_RETURN_KEY = (true, some "__EXCEPTION__") by
        simp [try_xcom_pull, h]]
  rw [hloop]
  simp [resultPhase, retrieve_exception_details]

/-- Witness for C5 (amended): the sentinel store with no detail keys. -/
theorem async_exception_result_witness :
    storeExc XCOM_RETURN_KEY = some (some "__EXCEPTION__") ∧ 0 < cfgEx.appengine_timeout ∧
    (poll_status cfgEx storeExc initialAsyncState).1 =
      .error (.remoteTaskFailed (safe_xcom_pull storeExc "__EXCEPTION_MESSAGE")) :=
  ⟨by decide, by decide, async_exception_result cfgEx storeExc (by decide) (by decide)⟩

/-- C7: for every sync-dispatcher response with a non-empty body, a 2xx
(more precisely, sub-400) status decodes the body by the `';'`-stripped
content type — `application/json` as JSON, `text/plain` as raw text,
each of the five YAML content types as YAML, anything else as raw
bytes — and writes the decoded body to the result store under the
default key, touching no other key; a 4xx/5xx status raises
`RemoteRequestFailed` and writes nothing. -/
theorem sync_decode_and_store (store : SyncStore) (r : Response) (h : r.content ≠ "") :
    (r.status < 400 →
      (syncExecute store r).1 = .ok () ∧
      (syncExecute store r).2 XCOM_RETURN_KEY = some (
        if pyHeadSplit r.contentType ";" = "application/json" then Body.jsonOf r.content
        else if pyHeadSplit r.contentType ";" = "text/plain" then Body.textOf r.content
        else if pyHeadSplit r.contentType ";" = "text/yaml" ∨
            pyHeadSplit r.contentType ";" = "text/x-yaml" ∨
            pyHeadSplit r.contentType ";" = "text/vnd.yaml" ∨
            pyHeadSplit r.contentType ";" = "application/yaml" ∨
            pyHeadSplit r.contentType ";" = "application/x-yaml" then Body.yamlOf r.content
        else Body.bytesOf r.content) ∧
      (∀ k, k ≠ XCOM_RETURN_KEY → (syncExecute store r).2 k = store k)) ∧
    (400 ≤ r.status → syncExecute store r = (.error (.remoteRequestFailed r.status), store)) := by
  constructor
  · intro hlt
    have hhk : hook_run r = .ok r := by
      unfold hook_run
      rw [if_neg (by omega)]
    unfold syncExecute
    simp only [hhk]
    rw [if_pos h]
    refine ⟨rfl, ?_, ?_⟩
    · show (if XCOM_RETURN_KEY = XCOM_RETURN_KEY then some _ else store XCOM_RETURN_KEY) = some _
      rw [if_pos rfl]
      congr 1
      simp only [List.mem_cons, List.not_mem_nil, or_false]
    · intro k hk
      show (if k = XCOM_RETURN_KEY then some _ else store k) = store k
      rw [if_neg hk]
  · intro hge
    unfold syncExecute hook_run
    rw [if_pos hge]

/-- Witness for C7: a JSON body with a charset-suffixed content type is
parsed as JSON and stored under the default key. -/
theorem sync_decode_and_store_witness :
    responseJson.content ≠ "" ∧
    ((responseJson.status < 400 →
      (syncExecute syncStoreEmpty responseJson).1 = .ok () ∧
      (syncExecute syncStoreEmpty responseJson).2 XCOM_RETURN_KEY = some (
        if pyHeadSplit responseJson.contentType ";" = "application/json" then
          Body.jsonOf responseJson.content
        else if pyHeadSplit responseJson.contentType ";" = "text/plain" then
          Body.textOf responseJson.content
        else if pyHeadSplit responseJson.contentType ";" = "text/yaml" ∨
            pyHeadSplit responseJson.contentType ";" = "text/x-yaml" ∨
            pyHeadSplit responseJson.contentType ";" = "text/vnd.yaml" ∨
            pyHeadSplit responseJson.contentType ";" = "application/yaml" ∨
            pyHeadSplit responseJson.contentType ";" = "application/x-yaml" then
          Body.yamlOf responseJson.content
        else Body.bytesOf responseJson.content) ∧
      (∀ k, k ≠ XCOM_RETURN_KEY →
        (syncExecute syncStoreEmpty responseJson).2 k = syncStoreEmpty k)) ∧
    (400 ≤ responseJson.status →
      syncExecute syncStoreEmpty responseJson =
        (.error (.remoteRequestFailed responseJson.status), syncStoreEmpty))) :=
  ⟨by decide, sync_decode_and_store syncStoreEmpty responseJson (by decide)⟩

/-- A hit of the regex search over the match region yields the
two-hex-group decomposition, with the greedy group 1 being `take g`. -/
theorem deuniqFind_some_decomp (body : List Char) (g : Nat)
    (hfind : (List.range body.length).reverse.find?
      (fun g => deuniqMatchAt body body.length g) = some g) :
    ∃ p a b : List Char, body = p ++ '-' :: (a ++ '-' :: b) ∧
      ('\n' : Char) ∉ p ∧ p ≠ [] ∧
      a.length = 16 ∧ (∀ c ∈ a, isLowerHex c = true) ∧
      12 ≤ b.length ∧ b.length ≤ 16 ∧ (∀ c ∈ b, isLowerHex c = true) ∧
      body.take g = p := by
  have hpred : deuniqMatchAt body body.length g = true := List.find?_some hfind
  have hglt : g < body.length := by
    have h1 := List.mem_of_find?_eq_some hfind
    rw [List.mem_reverse, List.mem_range] at h1
    exact h1
  simp only [deuniqMatchAt, Bool.and_eq_true, decide_eq_true_eq, beq_iff_eq,
    List.all_eq_true] at hpred
  obtain ⟨⟨⟨⟨⟨⟨⟨h1g, hpre⟩, hd1⟩, ha⟩, hd2⟩, hb2⟩, h12⟩, h16⟩ := hpred
  have hlt17 : g + 17 < body.length := by
    by_contra hcon
    push_neg at hcon
    rw [List.getD_eq_default _ _ hcon] at hd2
    exact absurd hd2 (by decide)
  have h30 : g + 30 ≤ body.length := by omega
  have hg : body.get ⟨g, by omega⟩ = '-' := by
    have h2 := hd1
    rw [List.getD_eq_getElem?_getD,
      List.getElem?_eq_getElem (show g < body.length by omega)] at h2
    simpa using h2
  have hg17 : body.get ⟨g + 17, hlt17⟩ = '-' := by
    have h2 := hd2
    rw [List.getD_eq_getElem?_getD, List.getElem?_eq_getElem hlt17] at h2
    simpa using h2
  have e2 : body.drop g = body.get ⟨g, by omega⟩ :: body.drop (g + 1) := by
    simpa using List.drop_eq_getElem_cons (show g < body.length by omega)
  have e3 : body.drop (g + 1) =
      (body.drop (g + 1)).take 16 ++ body.drop (g + 17) := by
    conv_lhs => rw [← List.take_append_drop 16 (body.drop (g + 1))]
    rw [List.drop_drop]
  have e4 : body.drop (g + 17) = body.get ⟨g + 17, hlt17⟩ :: body.drop (g + 18) := by
    simpa using List.drop_eq_getElem_cons hlt17
  have hdecomp : body = body.take g ++
      '-' :: ((body.drop (g + 1)).take 16 ++ '-' :: body.drop (g + 18)) := by
    conv_lhs => rw [← List.take_append_drop g body, e2, hg, e3, e4, hg17]
  refine ⟨body.take g, (body.drop (g + 1)).take 16, body.drop (g + 18),
    hdecomp, ?_, ?_, ?_, ha, ?_, ?_, hb2, rfl⟩
  · intro hmem
    exact hpre '\n' hmem rfl
  · apply List.ne_nil_of_length_pos
    rw [List.length_take]
    have := Nat.min_eq_left (show g ≤ body.length by omega)
    omega
  · rw [List.length_take, List.length_drop]
    exact Nat.min_eq_left (by omega)
  · rw [List.length_drop]
    omega
  · rw [List.length_drop]
    omega

/-- A miss of the regex search over the match region refutes every
two-hex-group decomposition with a newline-free base prefix. -/
theorem deuniqFind_none_decomp (body : List Char)
    (hfind : (List.range body.length).reverse.find?
      (fun g => deuniqMatchAt body body.length g) = none) :
    ¬ ∃ p a b : List Char, body = p ++ '-' :: (a ++ '-' :: b) ∧
      ('\n' : Char) ∉ p ∧ p ≠ [] ∧
      a.length = 16 ∧ (∀ c ∈ a, isLowerHex c = true) ∧
      12 ≤ b.length ∧ b.length ≤ 16 ∧ (∀ c ∈ b, isLowerHex c = true) := by
  rintro ⟨p, a, b, hdec, hnp, hp, ha16, hahex, hb12, hb16, hbhex⟩
  have hlen := congrArg List.length hdec
  simp only [List.length_append, List.length_cons] at hlen
  have hglt : p.length < body.length := by omega
  have hmem : p.length ∈ (List.range body.length).reverse := by
    rw [List.mem_reverse, List.mem_range]
    exact hglt
  refine absurd ?_ (List.find?_eq_none.mp hfind p.length hmem)
  show deuniqMatchAt body body.length p.length = true
  have hTake : body.take p.length = p := by
    rw [hdec, List.take_left]
  have hDropG : body.drop p.length = '-' :: (a ++ '-' :: b) := by
    rw [hdec, List.drop_left]
  have hDropG1 : body.drop (p.length + 1) = a ++ '-' :: b := by
    rw [← List.drop_drop 1 p.length body, hDropG]
    rfl
  have hA : (body.drop (p.length + 1)).take 16 = a := by
    rw [hDropG1, ← ha16, List.take_left]
  have hDropG17 : body.drop (p.length + 17) = '-' :: b := by
    have h1 : body.drop (p.length + 17) = (body.drop (p.length + 1)).drop 16 := by
      rw [List.drop_drop]
    rw [h1, hDropG1, ← ha16, List.drop_left]
  have hDropG18 : body.drop (p.length + 18) = b := by
    have h1 : body.drop (p.length + 18) = (body.drop (p.length + 17)).drop 1 := by
      rw [List.drop_drop]
    rw [h1, hDropG17]
    rfl
  simp only [deuniqMatchAt, Bool.and_eq_true, decide_eq_true_eq, beq_iff_eq,
    List.all_eq_true]
  refine ⟨⟨⟨⟨⟨⟨⟨?_, ?_⟩, ?_⟩, ?_⟩, ?_⟩, ?_⟩, ?_⟩, ?_⟩
  · have := List.length_pos.mpr hp
    omega
  · rw [hTake]
    intro c hc he
    exact hnp (he ▸ hc)
  · have h1 : body[p.length]? = some '-' := by
      rw [hdec, List.getElem?_append_right (le_refl p.length)]
      simp
    rw [List.getD_eq_getElem?_getD, h1]
    rfl
  · rw [hA]
    exact hahex
  · have h1 : body[p.length + 17]? = some '-' := by
      have h3 := List.getElem?_drop body (p.length + 17) 0
      rw [hDropG17] at h3
      simpa using h3.symm
    rw [List.getD_eq_getElem?_getD, h1]
    rfl
  · rw [hDropG18]
    exact hbhex
  · omega
  · omega

/-- The last character of a decomposed name lies in its final hex/tail
segment. -/
theorem decomp_getLast (p a b t : List Char) (hbt : b ++ t ≠ []) :
    (p ++ '-' :: (a ++ '-' :: (b ++ t))).getLast? = (b ++ t).getLast? := by
  have e : p ++ '-' :: (a ++ '-' :: (b ++ t)) =
      (p ++ '-' :: (a ++ ['-'])) ++ (b ++ t) := by
    simp
  rw [e]
  exact List.getLast?_append_of_ne_nil _ hbt

/-- C4 (amended): for every input string, `deuniquify_job_name` strips a
trailing `'-'` plus 16 lowercase-hex characters only when that group is
followed by a further, mandatory `'-'` plus 12-to-16 lowercase-hex
characters, the pair ending the string — or ending just before a single
final newline, which survives the substitution (`$` also matches there
without `re.DOTALL`) — after a nonempty, newline-free base prefix (`.`
does not match a newline); an input admitting no such two-group
decomposition — in particular one carrying only the single 16-hex
suffix, or no hex suffix at all — is returned unchanged. -/
theorem deuniquify_characterization (s : String) :
    (∃ p a b t : List Char, HexSuffixDecomp s.data p a b t ∧
      (deuniquify_job_name s).data = p ++ t) ∨
    ((¬ ∃ p a b t : List Char, HexSuffixDecomp s.data p a b t) ∧
      deuniquify_job_name s = s) := by
  by_cases hlast : s.data.getLast? = some '\n'
  · have hne : s.data ≠ [] := by
      intro h0
      rw [h0] at hlast
      simp at hlast
    have hlen1 : 0 < s.data.length := List.length_pos.mpr hne
    have hb : deuniqBound s.data = s.data.length - 1 := by
      unfold deuniqBound
      rw [if_pos hlast]
    have hlt : s.data.length - 1 < s.data.length := by omega
    have hdropLast : s.data.drop (s.data.length - 1) = ['\n'] := by
      rw [List.drop_eq_getElem_cons hlt]
      have h2 : s.data.drop (s.data.length - 1 + 1) = [] := by
        have he : s.data.length - 1 + 1 = s.data.length := by omega
        rw [he, List.drop_length]
      have h3 : s.data[s.data.length - 1]? = some '\n' := by
        rw [← List.getLast?_eq_getElem?]
        exact hlast
      rw [List.getElem?_eq_getElem hlt] at h3
      rw [h2, Option.some.inj h3]
    have hsplit : s.data = s.data.take (s.data.length - 1) ++ ['\n'] := by
      conv_lhs => rw [← List.take_append_drop (s.data.length - 1) s.data, hdropLast]
    unfold deuniquify_job_name
    rw [hb]
    simp only [hdropLast]
    set body := s.data.take (s.data.length - 1) with hbody
    have hblen : body.length = s.data.length - 1 := by
      rw [hbody, List.length_take]
      exact Nat.min_eq_left (by omega)
    rw [← hblen]
    cases hfind : (List.range body.length).reverse.find?
        (fun g => deuniqMatchAt body body.length g) with
    | some g =>
      left
      obtain ⟨p, a, b, hdec, hnp, hp, ha16, hahex, hb12, hb16, hbhex, hpg⟩ :=
        deuniqFind_some_decomp body g hfind
      have hglt : g < body.length := by
        have h1 := List.mem_of_find?_eq_some hfind
        rw [List.mem_reverse, List.mem_range] at h1
        exact h1
      have htg : s.data.take g = p := by
        rw [← hpg, hbody, List.take_take]
        congr 1
        exact (Nat.min_eq_left (by omega)).symm
      refine ⟨p, a, b, ['\n'],
        ⟨?_, Or.inr rfl, hnp, hp, ha16, hahex, hb12, hb16, hbhex⟩, ?_⟩
      · rw [hsplit, hdec]
        simp
      · show s.data.take g ++ ['\n'] = p ++ ['\n']
        rw [htg]
    | none =>
      right
      constructor
      · rintro ⟨p, a, b, t, ⟨hdec, ht, hnp, hp, ha16, hahex, hb12, hb16, hbhex⟩⟩
        have hbne : b ≠ [] := by
          intro h0
          rw [h0] at hb12
          exact absurd hb12 (by decide)
        rcases ht with ht | ht
        · subst ht
          have hgl : s.data.getLast? = b.getLast? := by
            rw [hdec]
            have h5 := decomp_getLast p a b [] (by simpa using hbne)
            simpa using h5
          have hnb : ('\n' : Char) ∈ b :=
            List.mem_of_mem_getLast? (show b.getLast? = some '\n' by
              rw [← hgl]; exact hlast)
          exact absurd (hbhex '\n' hnb) (by decide)
        · subst ht
          have hdec2 : s.data = (p ++ '-' :: (a ++ '-' :: b)) ++ ['\n'] := by
            rw [hdec]
            simp
          have hbodydec : body = p ++ '-' :: (a ++ '-' :: b) :=
            List.append_cancel_right (hsplit.symm.trans hdec2)
          exact deuniqFind_none_decomp body hfind
            ⟨p, a, b, hbodydec, hnp, hp, ha16, hahex, hb12, hb16, hbhex⟩
      · rfl
  · have hb : deuniqBound s.data = s.data.length := by
      unfold deuniqBound
      rw [if_neg hlast]
    unfold deuniquify_job_name
    rw [hb]
    simp only [List.take_length, List.drop_length, List.append_nil]
    cases hfind : (List.range s.data.length).reverse.find?
        (fun g => deuniqMatchAt s.data s.data.length g) with
    | some g =>
      left
      obtain ⟨p, a, b, hdec, hnp, hp, ha16, hahex, hb12, hb16, hbhex, hpg⟩ :=
        deuniqFind_some_decomp s.data g hfind
      refine ⟨p, a, b, [],
        ⟨?_, Or.inl rfl, hnp, hp, ha16, hahex, hb12, hb16, hbhex⟩, ?_⟩
      · rw [hdec]
        simp
      · show (String.mk (s.data.take g)).data = p ++ []
        rw [List.append_nil]
        exact hpg
    | none =>
      right
      constructor
      · rintro ⟨p, a, b, t, ⟨hdec, ht, hnp, hp, ha16, hahex, hb12, hb16, hbhex⟩⟩
        rcases ht with ht | ht
        · subst ht
          have hdec2 : s.data = p ++ '-' :: (a ++ '-' :: b) := by
            rw [hdec]
            simp
          exact deuniqFind_none_decomp s.data hfind
            ⟨p, a, b, hdec2, hnp, hp, ha16, hahex, hb12, hb16, hbhex⟩
        · subst ht
          have hdec2 : s.data = (p ++ '-' :: (a ++ '-' :: b)) ++ ['\n'] := by
            rw [hdec]
            simp
          rw [hdec2, List.getLast?_concat] at hlast
          exact hlast rfl
      · rfl

end AppEngine
